import Mathlib

/-!
Verification of the ingestion and indexing pipeline of the dynamic CSV
database system (FastAPI + SQLAlchemy + pandas).

The Python sources are shallowly embedded as executable Lean definitions:

* `app/utils.py`   : `calculate_file_hash`, `calculate_row_hash`,
  `detect_missing_values`, `infer_schema`, `validate_and_clean_data`.
* `app/crud.py`    : `create_dataset_metadata`, `insert_data_rows`,
  `build_column_index`, record shapes from `app/models.py`.
* `app/main.py`    : the `upload_csv` route (with its try/except wrapper)
  and the `get_data` route, over an explicit transactional store model
  (committed state + working session state; `commit` publishes, `rollback`
  discards, matching the SQLAlchemy session used by the code).

External collaborators are modelled at their interface:

* `hashlib.sha256` digests are injective fingerprints of their input; a
  digest is modelled by the exact string (or bytes) that the code feeds to
  the hash, since the code relies only on digest equality/inequality and
  treats SHA-256 as collision-free.
* `pandas.read_csv(dtype=str, keep_default_na=False)` and the latin1
  fallback are modelled for rectangular CSV input (every record with the
  same number of fields as the header); pandas-side edge behaviour on
  ragged records is outside the claims.
* `json.dumps(row, sort_keys=True)` is modelled character by character:
  keys sorted lexicographically, `", "` and `": "` separators, `null` for
  `None`, JSON string escaping with `ensure_ascii` semantics.

Cell values are `Option String` (`none` is the pandas missing sentinel /
Python `None`), row maps are association lists in column order, and a
dataframe is a list of named columns plus an index of row labels, exactly
the data `read_csv` produces (a `RangeIndex`, preserved by `dropna`).
-/

namespace CsvDb

/-! ### Character-level helpers (structural recursion, kernel-reducible) -/

/-- Split a character list at every occurrence of the separator character,
mirroring Python `str.split(sep)` for a one-character separator. -/
def splitOnChar (sep : Char) : List Char → List (List Char)
  | [] => [[]]
  | c :: cs =>
    match splitOnChar sep cs, decide (c = sep) with
    | r, true => [] :: r
    | [], false => [[c]]
    | h :: t, false => (c :: h) :: t

/-- Remove every (non-overlapping, leftmost-first) occurrence of `pat`
from the list, with explicit fuel; mirrors Python `str.replace(pat, "")`.
The callers pass `fuel = l.length`. -/
def removeSubFuel (pat : List Char) : Nat → List Char → List Char
  | 0, _ => []
  | _ + 1, [] => []
  | fuel + 1, c :: cs =>
    if pat ≠ [] ∧ pat.isPrefixOf (c :: cs) then
      removeSubFuel pat fuel (List.drop (pat.length - 1) cs)
    else
      c :: removeSubFuel pat fuel cs

/-- Python `str.replace(pat, "")`, removing all occurrences of `pat`. -/
def removeAll (s pat : String) : String :=
  String.mk (removeSubFuel pat.data s.data.length s.data)

/-- Join character chunks with a separator chunk, as `sep.join(chunks)`. -/
def joinSep (sep : List Char) : List (List Char) → List Char
  | [] => []
  | [x] => x
  | x :: y :: t => x ++ sep ++ joinSep sep (y :: t)

/-- Everything `joinSep` emits strictly before an exhibited middle chunk. -/
def preJoin (sep : List Char) : List (List Char) → List Char
  | [] => []
  | x :: t => x ++ sep ++ preJoin sep t

/-- Everything `joinSep` emits strictly after an exhibited middle chunk. -/
def postJoin (sep : List Char) : List (List Char) → List Char
  | [] => []
  | x :: t => sep ++ joinSep sep (x :: t)

theorem joinSep_cons_eq (sep x : List Char) (t : List (List Char)) :
    joinSep sep (x :: t) = x ++ postJoin sep t := by
  cases t <;> simp [joinSep, postJoin]

theorem postJoin_cons (sep x : List Char) (t : List (List Char)) :
    postJoin sep (x :: t) = sep ++ joinSep sep (x :: t) := rfl

theorem joinSep_decomp (sep : List Char) (E : List (List Char)) (e : List Char)
    (F : List (List Char)) :
    joinSep sep (E ++ e :: F) = preJoin sep E ++ (e ++ postJoin sep F) := by
  induction E with
  | nil => simp [preJoin, joinSep_cons_eq]
  | cons x E ih =>
    rw [show (x :: E) ++ e :: F = x :: (E ++ e :: F) from rfl, joinSep_cons_eq]
    cases E with
    | nil => simp [postJoin_cons, preJoin, joinSep_cons_eq, List.append_assoc]
    | cons z E2 =>
      rw [show (z :: E2) ++ e :: F = z :: (E2 ++ e :: F) from rfl, postJoin_cons,
        ← show (z :: E2) ++ e :: F = z :: (E2 ++ e :: F) from rfl, ih]
      simp [preJoin, List.append_assoc]

/-! ### HashingService (`app/utils.py`) -/

/-- Lowercase hexadecimal digit, as produced by Python JSON escapes. -/
def hexDigitChar (n : Nat) : Char :=
  if n < 10 then Char.ofNat (48 + n) else Char.ofNat (87 + n)

/-- A JSON `\uXXXX` escape for a code unit. -/
def uEscape (n : Nat) : List Char :=
  ['\\', 'u', hexDigitChar (n / 4096 % 16), hexDigitChar (n / 256 % 16),
   hexDigitChar (n / 16 % 16), hexDigitChar (n % 16)]

/-- JSON escaping of one character, following `json.dumps` with its default
`ensure_ascii=True`: short escapes for the usual control characters, and
`\uXXXX` (with surrogate pairs above the BMP) for every other character
outside the printable ASCII range. -/
def jsonEscapeChar (c : Char) : List Char :=
  if c = '"' then ['\\', '"']
  else if c = '\\' then ['\\', '\\']
  else if c = '\n' then ['\\', 'n']
  else if c = '\r' then ['\\', 'r']
  else if c = '\t' then ['\\', 't']
  else if c = Char.ofNat 8 then ['\\', 'b']
  else if c = Char.ofNat 12 then ['\\', 'f']
  else if c.toNat < 32 ∨ 126 < c.toNat then
    if c.toNat ≤ 65535 then uEscape c.toNat
    else uEscape (55296 + (c.toNat - 65536) / 1024) ++ uEscape (56320 + (c.toNat - 65536) % 1024)
  else [c]

/-- Characters of the JSON rendering of a Python string. -/
def serializeStringChars (s : String) : List Char :=
  '"' :: (s.data.flatMap jsonEscapeChar ++ ['"'])

/-- Characters of the JSON rendering of a cell value (`None` ↦ `null`). -/
def serializeValueChars : Option String → List Char
  | none => ['n', 'u', 'l', 'l']
  | some s => serializeStringChars s

/-- One `"key": value` item of the serialized row object (`json.dumps`
uses `": "` as the key separator). -/
def entryChars (p : String × Option String) : List Char :=
  serializeStringChars p.1 ++ (':' :: ' ' :: serializeValueChars p.2)

/-- Key order used by `json.dumps(..., sort_keys=True)`. -/
def keyLE (p q : String × Option String) : Prop := p.1 ≤ q.1

/-- Strict version of `keyLE`, used to identify the sorted row uniquely
when the keys are distinct. -/
def keyLT (p q : String × Option String) : Prop := p.1 < q.1

instance : DecidableRel keyLE := fun p q => inferInstanceAs (Decidable (p.1 ≤ q.1))

instance : DecidableRel keyLT := fun p q => inferInstanceAs (Decidable (p.1 < q.1))

instance : IsTotal (String × Option String) keyLE := ⟨fun p q => le_total p.1 q.1⟩

instance : IsTrans (String × Option String) keyLE := ⟨fun _ _ _ h1 h2 => le_trans h1 h2⟩

instance : IsAntisymm (String × Option String) keyLT :=
  ⟨fun _ _ h1 h2 => absurd (lt_trans h1 h2) (lt_irrefl _)⟩

/-- The row items in canonical (`sort_keys=True`) order. Python uses a
stable comparison sort; on the association lists fed to the hash any sort
that is a sorted permutation yields the same list once keys are compared,
so insertion sort is used here. -/
def canonicalItems (row : List (String × Option String)) : List (String × Option String) :=
  List.insertionSort keyLE row

/-- Characters of `json.dumps(row_data, sort_keys=True)`: a brace-wrapped
object with `", "` separators over the canonically ordered items. -/
def rowStringChars (row : List (String × Option String)) : List Char :=
  Char.ofNat 123 :: (joinSep [',', ' '] ((canonicalItems row).map entryChars) ++ [Char.ofNat 125])

/-- Embeds `utils.calculate_row_hash`: the SHA-256 hexdigest of the UTF-8
encoding of `json.dumps(row_data, sort_keys=True)`. `hashlib.sha256` is an
external collaborator used only through digest equality; it is modelled as
the injective map taking the canonical serialization to itself, which
identifies digests exactly when the program (treating SHA-256 as
collision-free) considers the rows identical. -/
def calculate_row_hash (row_data : List (String × Option String)) : String :=
  String.mk (rowStringChars row_data)

/-- Embeds `utils.calculate_file_hash`: the SHA-256 hexdigest of the raw
uploaded bytes, modelled (like the row digest) as an injective fingerprint
of the content. -/
def calculate_file_hash (content : String) : String :=
  String.mk ('#' :: content.data)

/-! ### The dataframe model (`pandas` tables as the code uses them) -/

/-- One pandas column: its name, its dtype rendered as `str(dtype)` (both
CSV parse paths in `main.py` use `dtype=str`, so in this application every
parsed column has dtype string `"object"`), and its cell values. `none` is
the pandas missing sentinel. -/
structure PdColumn where
  name : String
  dtype : String
  values : List (Option String)
deriving DecidableEq, Repr

/-- A pandas dataframe: named columns plus the row index labels.
`read_csv` yields a `RangeIndex 0..n-1`; `dropna` keeps the surviving
labels, and `iterrows` later reports them as `row_number`. -/
structure PdFrame where
  cols : List PdColumn
  index : List Nat
deriving DecidableEq, Repr

/-- Keep the elements of `l` whose 0-based position (counting from `i`)
is not listed in `ps`. -/
def dropAtPositionsAux (ps : List Nat) : Nat → List α → List α
  | _, [] => []
  | i, x :: xs => (if i ∈ ps then [] else [x]) ++ dropAtPositionsAux ps (i + 1) xs

/-- Keep the elements of `l` whose 0-based position is not listed in `ps`. -/
def dropAtPositions (ps : List Nat) (l : List α) : List α :=
  dropAtPositionsAux ps 0 l

/-- An entry of the validator error log (`utils.validate_and_clean_data`),
one constructor per `type` value the code emits. -/
inductive ErrorEntry where
  | empty_rows (count : Nat) (positions : List Nat)
  | duplicate_columns (columns : List String)
  | all_null_columns (columns : List String) (action : String)
deriving DecidableEq, Repr

/-- Per-column section of the missing-value report. The `percentage` the
code computes as a Python float is modelled as the exact rational
`count / len(df) * 100`; no claim depends on its rounding. -/
structure MissingColInfo where
  count : Nat
  percentage : ℚ
  positions : List Nat
deriving DecidableEq, Repr

/-- Result shape of `utils.detect_missing_values`. -/
structure MissingReport where
  has_missing : Bool
  total_missing_cells : Nat
  columns_with_missing : List (String × MissingColInfo)
deriving DecidableEq, Repr

/-- Embeds `utils.detect_missing_values`: for every column with at least
one null, report the null count, the percentage over `len(df)`, and the
first 100 index labels of null cells; `has_missing` is set as soon as any
column has a null, and `total_missing_cells` sums nulls over all cells. -/
def detect_missing_values (df : PdFrame) : MissingReport :=
  { has_missing := df.cols.any (fun c => decide (0 < c.values.count none)),
    total_missing_cells := (df.cols.map (fun c => c.values.count none)).sum,
    columns_with_missing := df.cols.filterMap (fun c =>
      let nullCount := c.values.count none
      if 0 < nullCount then
        some (c.name,
          { count := nullCount,
            percentage := (nullCount : ℚ) / (df.index.length : ℚ) * 100,
            positions :=
              ((df.index.enum.filter
                (fun pl => decide (c.values.getD pl.1 none = none))).map (·.2)).take 100 })
      else none) }

/-- Embeds the dtype dispatch of `utils.infer_schema`: map a rendered
dtype string to the logical type name (`str.startswith` is modelled as a
character-list test so that concrete instances evaluate in the kernel). -/
def logicalTypeOfDtype (dtype : String) : String :=
  if List.isPrefixOf ['i', 'n', 't'] dtype.data then "integer"
  else if List.isPrefixOf ['f', 'l', 'o', 'a', 't'] dtype.data then "float"
  else if dtype = "bool" then "boolean"
  else if dtype = "datetime64[ns]" then "datetime"
  else "string"

/-- Embeds `utils.infer_schema`. The Python function fills a dict keyed by
column name in column order; the dict is modelled by the association list
of its assignments (lookup of a repeated key takes the last assignment,
irrelevant here because cleaned tables have unique column names). -/
def infer_schema (df : PdFrame) : List (String × String) :=
  df.cols.map (fun c => (c.name, logicalTypeOfDtype c.dtype))

/-- True when every cell of row position `p` is null — the membership test
of `df[df.isnull().all(axis=1)]`. -/
def isEmptyRowAt (df : PdFrame) (p : Nat) : Bool :=
  df.cols.all (fun c => decide (c.values.getD p none = none))

/-- The names pandas `columns.duplicated()` marks: every occurrence of a
name that already appeared earlier in the column list. -/
def duplicatedNamesAux (seen : List String) : List String → List String
  | [] => []
  | n :: rest =>
    (if n ∈ seen then [n] else []) ++ duplicatedNamesAux (n :: seen) rest

def duplicatedNames (names : List String) : List String :=
  duplicatedNamesAux [] names

/-- Models `pandas.io.parsers.base_parser.ParserBase._maybe_dedup_names`
(external library helper): occurrence `k ≥ 1` (0-based) of a repeated
column name `x` is renamed to `x.k`, first occurrence kept, order
preserved. -/
def renameDedupAux (seen : List String) : List PdColumn → List PdColumn
  | [] => []
  | c :: rest =>
    let k := seen.count c.name
    { c with name := if k = 0 then c.name else c.name ++ "." ++ toString k }
      :: renameDedupAux (c.name :: seen) rest

def renameDedup (cols : List PdColumn) : List PdColumn :=
  renameDedupAux [] cols

/-- First check of `utils.validate_and_clean_data`: if any row is fully
null, log `empty_rows` with the count and the original index labels and
drop those rows (`df.dropna(how="all")`, which keeps the surviving
labels). -/
def validatorStep1 (df : PdFrame) : PdFrame × List ErrorEntry :=
  let emptyPs := (List.range df.index.length).filter (fun p => isEmptyRowAt df p)
  if emptyPs.isEmpty then (df, [])
  else
    ({ cols := df.cols.map (fun c => { c with values := dropAtPositions emptyPs c.values }),
       index := dropAtPositions emptyPs df.index },
     [ErrorEntry.empty_rows emptyPs.length (emptyPs.map (fun p => df.index.getD p 0))])

/-- Second check: if any column name is duplicated, log the duplicated
occurrences and rename via the pandas dedup helper. -/
def validatorStep2 (df1 : PdFrame) : PdFrame × List ErrorEntry :=
  let dupCols := duplicatedNames (df1.cols.map (·.name))
  if dupCols.isEmpty then (df1, [])
  else ({ df1 with cols := renameDedup df1.cols }, [ErrorEntry.duplicate_columns dupCols])

/-- Third check: log — without dropping — the columns whose remaining
values are all null. -/
def validatorStep3 (df2 : PdFrame) : List ErrorEntry :=
  let allNull :=
    (df2.cols.filter (fun c => c.values.all (fun v => decide (v = none)))).map (·.name)
  if allNull.isEmpty then []
  else [ErrorEntry.all_null_columns allNull "kept_for_schema_integrity"]

/-- Embeds `utils.validate_and_clean_data`: the three checks in source
order, accumulating the error log. Note the source has no special case
for a zero-row table: `df.isnull().all()` is vacuously true over zero
rows, so there every column lands in `all_null_columns`. -/
def validate_and_clean_data (df : PdFrame) : PdFrame × List ErrorEntry :=
  let step1 := validatorStep1 df
  let step2 := validatorStep2 step1.1
  (step2.1, step1.2 ++ step2.2 ++ validatorStep3 step2.1)

/-! ### CSV parsing (`pd.read_csv` as called by `main.upload_csv`) -/

/-- Fields of one CSV record (comma-separated; the uploads the claims
exercise use no quoting). -/
def parseRecord (line : List Char) : List String :=
  (splitOnChar ',' line).map String.mk

/-- The default `na_values` tokens of `pandas.read_csv`, recognized when
`keep_default_na` is left at `True` (the latin1 fallback path). -/
def defaultNaValues : List String :=
  ["", "#N/A", "#N/A N/A", "#NA", "-1.#IND", "-1.#QNAN", "-NaN", "-nan",
   "1.#IND", "1.#QNAN", "<NA>", "N/A", "NA", "NULL", "NaN", "None", "n/a", "nan", "null"]

/-- Shared shape of both `read_csv` calls: first non-blank line is the
header, remaining non-blank lines are records (`skip_blank_lines` default),
every column gets dtype `"object"` (`dtype=str`), index is `0..n-1`.
The model accepts rectangular input only: a record whose field count
differs from the header is rejected like the pandas tokenizer error (for
short records pandas instead pads with NaN — outside the claims, which
exercise well-formed uploads). An input without a header line is the
pandas `EmptyDataError`. -/
def readCsvWith (cell : String → Option String) (content : String) :
    Except String PdFrame :=
  match (splitOnChar '\n' content.data).filter (fun l => decide (l ≠ [])) with
  | [] => Except.error "EmptyDataError: No columns to parse from file"
  | headerLine :: dataLines =>
    if (parseRecord headerLine).isEmpty then
      Except.error "EmptyDataError: No columns to parse from file"
    else if (dataLines.map parseRecord).all
        (fun r => decide (r.length = (parseRecord headerLine).length)) then
      Except.ok
        { cols := (parseRecord headerLine).enum.map (fun jn =>
            { name := jn.2, dtype := "object",
              values := (dataLines.map parseRecord).map (fun r => cell (r.getD jn.1 "")) }),
          index := List.range (dataLines.map parseRecord).length }
    else Except.error "ParserError: record field count differs from header"

/-- Embeds the primary parse `pd.read_csv(..., dtype=str,
keep_default_na=False)`: every field is kept as its literal string, empty
fields included — no NA conversion at all. -/
def readCsvPrimary (content : String) : Except String PdFrame :=
  readCsvWith (fun s => some s) content

/-- Embeds the fallback parse `pd.read_csv(..., encoding="latin1",
dtype=str)`: `keep_default_na` is left at its default, so the default NA
tokens (the empty field among them) become missing values. -/
def readCsvFallback (content : String) : Except String PdFrame :=
  readCsvWith (fun s => if s ∈ defaultNaValues then none else some s) content

/-! ### Store records (`app/models.py`) -/

/-- A `data_rows` record (timestamps omitted: defaulted by the store and
never read by the code under scrutiny). -/
structure DataRowRec where
  dataset_id : Nat
  row_number : Nat
  data_json : List (String × Option String)
  row_hash : String
  has_missing_values : Bool
  is_duplicate : Bool
deriving DecidableEq, Repr

/-- A `column_index` record. -/
structure ColumnIndexRec where
  dataset_id : Nat
  column_name : String
  data_type : String
  distinct_count : Nat
  min_value : Option String
  max_value : Option String
  sample_values : List String
deriving DecidableEq, Repr

/-- A `dataset_metadata` record (timestamps again omitted). -/
structure MetadataRec where
  id : Nat
  dataset_name : String
  original_filename : String
  row_count : Nat
  column_count : Nat
  file_hash : String
  schema_definition : List (String × String)
  has_missing_values : Bool
  missing_value_report : MissingReport
  duplicate_count : Nat
  error_log : List ErrorEntry
  description : Option String
deriving DecidableEq, Repr

/-- The three tables of the relational store, plus the id sequence. -/
structure DbState where
  metadata : List MetadataRec
  rows : List DataRowRec
  colIndex : List ColumnIndexRec
  nextId : Nat
deriving DecidableEq, Repr

/-- A SQLAlchemy session over the store: `committed` is what concurrent
readers observe, `working` is the transaction-local view that session
queries see after `add`/`flush`. `commit` publishes the working state,
`rollback` discards it. -/
structure Session where
  committed : DbState
  working : DbState
deriving DecidableEq, Repr

def Session.rollback (s : Session) : Session := { s with working := s.committed }

def Session.commit (s : Session) : Session := { s with committed := s.working }

def Session.addRows (s : Session) (rs : List DataRowRec) : Session :=
  { s with working := { s.working with rows := s.working.rows ++ rs } }

def Session.addColIndex (s : Session) (cs : List ColumnIndexRec) : Session :=
  { s with working := { s.working with colIndex := s.working.colIndex ++ cs } }

/-- Models the post-insert `metadata.duplicate_count = duplicate_count`
assignment on the flushed (still uncommitted) metadata row. -/
def Session.setDuplicateCount (s : Session) (dsid cnt : Nat) : Session :=
  { s with working := { s.working with metadata :=
      (s.working.metadata.map
        (fun m => if m.id = dsid then { m with duplicate_count := cnt } else m)) } }

/-! ### `app/crud.py` -/

/-- Embeds `crud.get_dataset_by_name` (a session query: sees the working
state). -/
def get_dataset_by_name (s : Session) (dataset_name : String) : Option MetadataRec :=
  s.working.metadata.find? (fun m => decide (m.dataset_name = dataset_name))

/-- Embeds `crud.get_dataset_by_hash`. -/
def get_dataset_by_hash (s : Session) (file_hash : String) : Option MetadataRec :=
  s.working.metadata.find? (fun m => decide (m.file_hash = file_hash))

/-- Embeds `crud.create_dataset_metadata`: `add` then `flush`, which
assigns the primary key from the id sequence. -/
def create_dataset_metadata (s : Session) (info : MetadataRec) : MetadataRec × Session :=
  let rec0 := { info with id := s.working.nextId }
  (rec0,
   { s with working := { s.working with
       metadata := s.working.metadata ++ [rec0],
       nextId := s.working.nextId + 1 } })

/-- The `(row_number, row.to_dict())` pairs of `df.iterrows()`: the label
from the (drop-surviving) index, and the column-name → null-normalized
value map. The `None if pd.isna(v) else v` normalization of
`insert_data_rows` is the identity here because cells already carry the
missing sentinel as `none`. -/
def PdFrame.rowsList (df : PdFrame) : List (Nat × List (String × Option String)) :=
  df.index.enum.map (fun pl =>
    (pl.2, df.cols.map (fun c => (c.name, c.values.getD pl.1 none))))

/-- The loop of `crud.insert_data_rows`: `seen` is the running
`row_hashes` set (a list with membership as the set test), the result is
the duplicate count and the built `DataRow` records in table order. -/
def insertRowsAux (dataset_id : Nat) (seen : List String) :
    List (Nat × List (String × Option String)) → Nat × List DataRowRec
  | [] => (0, [])
  | (idx, r) :: rest =>
    let h := calculate_row_hash r
    let dup := decide (h ∈ seen)
    let next := insertRowsAux dataset_id (h :: seen) rest
    (next.1 + (if dup then 1 else 0),
     { dataset_id := dataset_id, row_number := idx, data_json := r, row_hash := h,
       has_missing_values := r.any (fun kv => decide (kv.2 = none)),
       is_duplicate := dup } :: next.2)

/-- Embeds `crud.insert_data_rows` as a pure computation: the returned
duplicate count and the records the loop adds to the session. -/
def insert_data_rows (dataset_id : Nat) (df : PdFrame) : Nat × List DataRowRec :=
  insertRowsAux dataset_id [] df.rowsList

def listMinString : List String → String
  | [] => ""
  | x :: xs => xs.foldl min x

def listMaxString : List String → String
  | [] => ""
  | x :: xs => xs.foldl max x

/-- One record built by the loop of `crud.build_column_index`:
`col_data = df[col].dropna()`; `data_type = str(df[col].dtype)`;
`distinct_count = df[col].nunique()` (distinct non-null values);
`min`/`max` are the pandas object-column reductions, i.e. Python `min`/
`max` over strings — lexicographic — with `str(...)` the identity on
strings; `sample_values` are the first ten non-null values. -/
def columnIndexEntry (dataset_id : Nat) (c : PdColumn) : ColumnIndexRec :=
  let colData := c.values.filterMap id
  { dataset_id := dataset_id, column_name := c.name, data_type := c.dtype,
    distinct_count := colData.dedup.length,
    min_value := if colData.isEmpty then none else some (listMinString colData),
    max_value := if colData.isEmpty then none else some (listMaxString colData),
    sample_values := if colData.isEmpty then [] else colData.take 10 }

/-- Embeds `crud.build_column_index` as the records the loop adds. -/
def build_column_index (dataset_id : Nat) (df : PdFrame) : List ColumnIndexRec :=
  df.cols.map (columnIndexEntry dataset_id)

/-! ### `app/main.py` — the upload route and the data route -/

/-- A raised Python exception reaching the route's `try`/`except`:
`fastapi.HTTPException` (which subclasses `Exception`), a pandas parse
failure, or a storage-layer failure. -/
inductive PyErr where
  | http (status : Nat) (detail : String)
  | pandasError (msg : String)
  | storage (msg : String)
deriving DecidableEq, Repr

/-- Python `str(e)` for the exceptions above (starlette renders an
`HTTPException` as `"<status>: <detail>"`). -/
def strOfExc : PyErr → String
  | .http s d => toString s ++ ": " ++ d
  | .pandasError m => m
  | .storage m => m

/-- Fault injection for the external storage layer: make the k-th row
`add`, the k-th index `add`, or the final `commit` raise, so that the
rollback contract can be stated over every failure point (§7 of the
spec: parse, storage, or any uncaught condition). -/
structure FaultSpec where
  failInsertAfter : Option Nat
  failIndexAfter : Option Nat
  failCommit : Bool
deriving DecidableEq, Repr

def noFaults : FaultSpec := { failInsertAfter := none, failIndexAfter := none, failCommit := false }

/-- The nested parse of `upload_csv`: try the primary `read_csv`, fall
back to the latin1 variant, and let a failure of both propagate as an
exception to the route's own handler. -/
def readCsvSafe (content : String) : Except PyErr PdFrame :=
  match readCsvPrimary content with
  | .ok df => .ok df
  | .error _ =>
    match readCsvFallback content with
    | .ok df => .ok df
    | .error m => .error (.pandasError m)

/-- The 200-response body of a successful upload. -/
structure UploadSuccess where
  dataset_id : Nat
  dataset_name : String
  rows_inserted : Nat
  columns : Nat
  duplicate_rows : Nat
  has_missing_values : Bool
  errors_detected : Nat
  schema : List (String × String)
deriving DecidableEq, Repr

/-- What the HTTP client receives from `upload_csv`. -/
inductive UploadOutcome where
  | success (payload : UploadSuccess)
  | failure (status : Nat) (detail : String)
deriving DecidableEq, Repr

/-- `crud.insert_data_rows` acting on the session, with an optional
injected storage failure after `k` of the row `add`s. -/
def insert_data_rows_db (faults : FaultSpec) (s : Session) (dataset_id : Nat)
    (df : PdFrame) : Except (PyErr × Session) (Nat × Session) :=
  let res := insert_data_rows dataset_id df
  match faults.failInsertAfter with
  | some k =>
    if k ≤ res.2.length then
      .error (.storage "storage failure during row insert", s.addRows (res.2.take k))
    else .ok (res.1, s.addRows res.2)
  | none => .ok (res.1, s.addRows res.2)

/-- `crud.build_column_index` acting on the session, with an optional
injected storage failure after `k` of the index `add`s. -/
def build_column_index_db (faults : FaultSpec) (s : Session) (dataset_id : Nat)
    (df : PdFrame) : Except (PyErr × Session) Session :=
  let entries := build_column_index dataset_id df
  match faults.failIndexAfter with
  | some k =>
    if k ≤ entries.length then
      .error (.storage "storage failure during index build", s.addColIndex (entries.take k))
    else .ok (s.addColIndex entries)
  | none => .ok (s.addColIndex entries)

/-- `file.filename.replace(".csv", "") + "_" + <UTC timestamp>`; the
timestamp string is an input (`now`) since it comes from the clock. -/
def autoDatasetName (filename now : String) : String :=
  removeAll filename ".csv" ++ "_" ++ now

/-- The `if not dataset_name:` default of the route: Python treats both
`None` and the empty string as falsy, so both select the auto-generated
name. -/
def resolvedDatasetName (dataset_name : Option String) (filename now : String) : String :=
  match dataset_name with
  | none => autoDatasetName filename now
  | some s => if s = "" then autoDatasetName filename now else s

/-- The body of the `try:` block of `main.upload_csv`, threading the
session; an error result carries the session as mutated so far, exactly
what the `except` clause receives. -/
def upload_body (content filename : String) (dataset_name description : Option String)
    (now : String) (faults : FaultSpec) (db : Session) :
    Except (PyErr × Session) (UploadSuccess × Session) :=
  let file_hash := calculate_file_hash content
  match get_dataset_by_hash db file_hash with
  | some m => .error (.http 409 ("Duplicate file. Already stored as: " ++ m.dataset_name), db)
  | none =>
    match readCsvSafe content with
    | .error e => .error (e, db)
    | .ok df0 =>
      let cleaned := validate_and_clean_data df0
      let df := cleaned.1
      let errors := cleaned.2
      let missing_report := detect_missing_values df
      let schema := infer_schema df
      let dsName := resolvedDatasetName dataset_name filename now
      match get_dataset_by_name db dsName with
      | some _ => .error (.http 400 "Dataset name already exists", db)
      | none =>
        let created := create_dataset_metadata db
          { id := 0, dataset_name := dsName, original_filename := filename,
            row_count := df.index.length, column_count := df.cols.length,
            file_hash := file_hash, schema_definition := schema,
            has_missing_values := missing_report.has_missing,
            missing_value_report := missing_report,
            duplicate_count := 0, error_log := errors, description := description }
        match insert_data_rows_db faults created.2 created.1.id df with
        | .error es => .error es
        | .ok res =>
          let db2 := res.2.setDuplicateCount created.1.id res.1
          match build_column_index_db faults db2 created.1.id df with
          | .error es => .error es
          | .ok db3 =>
            if faults.failCommit then
              .error (.storage "storage failure during commit", db3)
            else
              .ok ({ dataset_id := created.1.id, dataset_name := dsName,
                     rows_inserted := df.index.length, columns := df.cols.length,
                     duplicate_rows := res.1,
                     has_missing_values := missing_report.has_missing,
                     errors_detected := errors.length, schema := schema },
                   db3.commit)

/-- Embeds the `upload_csv` route. Its `except Exception as e:` clause
catches every exception raised in the body — including the
`HTTPException(409)` / `HTTPException(400)` it raised itself, because
FastAPI's `HTTPException` subclasses `Exception` — rolls the session
back, and re-raises `HTTPException(500, str(e))`, which FastAPI turns
into the actual HTTP response. -/
def upload_csv (content filename : String) (dataset_name description : Option String)
    (now : String) (faults : FaultSpec) (db : Session) : UploadOutcome × Session :=
  match upload_body content filename dataset_name description now faults db with
  | .ok r => (UploadOutcome.success r.1, r.2)
  | .error e => (UploadOutcome.failure 500 (strOfExc e.1), Session.rollback e.2)

/-- Response body of `GET /dataset/{name}/data`. -/
structure DataResponse where
  dataset_name : String
  total_rows : Nat
  returned_rows : Nat
  data : List (List (String × Option String))
deriving DecidableEq, Repr

/-- Embeds the `get_data` route, reading the committed store (a fresh
request session): 404 for an unknown name, otherwise the rows of the
dataset in insertion order, optionally restricted to non-duplicates, then
windowed by `offset`/`limit`; `total_rows` is taken from the metadata
record, not from the query. -/
def get_data (db : DbState) (dataset_name : String) (limit offset : Nat)
    (exclude_duplicates : Bool) : Except Nat DataResponse :=
  match db.metadata.find? (fun m => decide (m.dataset_name = dataset_name)) with
  | none => Except.error 404
  | some ds =>
    let q := db.rows.filter (fun r => decide (r.dataset_id = ds.id))
    let q2 := if exclude_duplicates then q.filter (fun r => !r.is_duplicate) else q
    let page := (q2.drop offset).take limit
    Except.ok
      { dataset_name := dataset_name, total_rows := ds.row_count,
        returned_rows := page.length, data := page.map (·.data_json) }

/-! ### Concrete store fixtures used by closed theorems and witnesses -/

/-- Metadata of a dataset named `ds1` whose file hash is the digest of the
upload `"a\n1"`, with the three rows of `rowsFixture` already committed. -/
def mdFixture : MetadataRec :=
  { id := 1, dataset_name := "ds1", original_filename := "orig.csv", row_count := 3,
    column_count := 1, file_hash := calculate_file_hash "a\n1",
    schema_definition := [("a", "string")], has_missing_values := false,
    missing_value_report :=
      { has_missing := false, total_missing_cells := 0, columns_with_missing := [] },
    duplicate_count := 1, error_log := [], description := none }

def rowsFixture : List DataRowRec :=
  [{ dataset_id := 1, row_number := 0, data_json := [("a", some "1")],
     row_hash := calculate_row_hash [("a", some "1")],
     has_missing_values := false, is_duplicate := false },
   { dataset_id := 1, row_number := 1, data_json := [("a", some "1")],
     row_hash := calculate_row_hash [("a", some "1")],
     has_missing_values := false, is_duplicate := true },
   { dataset_id := 1, row_number := 2, data_json := [("a", some "2")],
     row_hash := calculate_row_hash [("a", some "2")],
     has_missing_values := false, is_duplicate := false }]

def dbFixture : DbState :=
  { metadata := [mdFixture], rows := rowsFixture, colIndex := [], nextId := 2 }

/-- A fresh request session over `dbFixture` (working view = committed). -/
def sessionFixture : Session := { committed := dbFixture, working := dbFixture }

/-- A three-row one-column dataframe whose first two rows are identical. -/
def dfDup : PdFrame :=
  { cols := [{ name := "a", dtype := "object", values := [some "1", some "1", some "2"] }],
    index := [0, 1, 2] }

/-! ### C1 — conflict statuses of the upload route -/

/-- C1. The spec claims the upload route answers 409 for a duplicate file
hash and 400 for a duplicate dataset name, both distinct from the 500 of
an unexpected failure. The code raises those `HTTPException`s inside its
own `try:` block whose `except Exception` clause catches them (FastAPI's
`HTTPException` subclasses `Exception`) and re-raises
`HTTPException(500, str(e))`: both conflict cases therefore reach the
client as 500, not 409/400. This theorem evaluates the route at the two
failing inputs: re-uploading the bytes of the stored `ds1` file, and
uploading fresh bytes under the taken name `ds1`. -/
theorem upload_conflict_status_evaluation :
    (upload_csv "a\n1" "test.csv" none none "ts" noFaults sessionFixture).1
      = UploadOutcome.failure 500 "409: Duplicate file. Already stored as: ds1" ∧
    (upload_csv "b\n2" "test.csv" (some "ds1") none "ts" noFaults sessionFixture).1
      = UploadOutcome.failure 500 "400: Dataset name already exists" := by
  constructor <;> rfl

/-! ### C3 — the all-null check on a zero-row table -/

/-- C3. The spec claims the validator skips the all-null-column check for
a zero-row table, so the error log carries no `all_null_columns` entry.
The code has no such special case: `df.isnull().all()` is vacuously true
over zero rows, so every column of a zero-row table is flagged. Evaluated
at the zero-row one-column table (a header-only CSV produces exactly this
frame), the error log consists of the entry the claim says is absent. -/
theorem zero_row_all_null_flagging :
    (validate_and_clean_data
        { cols := [{ name := "a", dtype := "object", values := [] }], index := [] }).2
      = [ErrorEntry.all_null_columns ["a"] "kept_for_schema_integrity"] := rfl

/-! ### C2 — the data_type stored in the column index -/

/-- One cleaned string-parsed column and its one-column table. -/
def colX : PdColumn := { name := "a", dtype := "object", values := [some "x"] }

def dfX : PdFrame := { cols := [colX], index := [0] }

/-- C2 counterexample. The claim says the column-index `data_type` equals
the logical type name produced by the schema inferencer. For a cleaned
string-parsed column the raw dtype is `"object"`: the entry stores
`"object"` while the inferencer yields `"string"`, so the claim fails at
this concrete column. -/
theorem column_index_data_type_cex :
    (columnIndexEntry 1 colX).data_type = "object" ∧
    infer_schema dfX = [("a", "string")] ∧
    (columnIndexEntry 1 colX).data_type ≠ "string" := by
  refine ⟨rfl, rfl, ?_⟩
  decide

/-- C2 amended: `build_column_index` stores `str(df[col].dtype)` — the
raw dtype string, which for every column of this app's string-parsed
tables is `"object"` — while the schema inferencer maps that same dtype
to the logical name `"string"`; the stored `data_type` is the
inferencer's input, not its output, and differs from it. -/
theorem column_index_data_type_raw_dtype (dataset_id : Nat) (df : PdFrame) (c : PdColumn)
    (hc : c ∈ df.cols) (hdt : c.dtype = "object") :
    (columnIndexEntry dataset_id c).data_type = c.dtype ∧
    (c.name, "string") ∈ infer_schema df ∧
    (columnIndexEntry dataset_id c).data_type ≠ logicalTypeOfDtype c.dtype := by
  refine ⟨rfl, ?_, ?_⟩
  · have : (c.name, logicalTypeOfDtype c.dtype) ∈ infer_schema df :=
      List.mem_map_of_mem _ hc
    rwa [hdt] at this
  · show c.dtype ≠ logicalTypeOfDtype c.dtype
    rw [hdt]
    decide

theorem column_index_data_type_raw_dtype_witness :
    (columnIndexEntry 1 colX).data_type ≠ logicalTypeOfDtype colX.dtype :=
  (column_index_data_type_raw_dtype 1 dfX colX (List.mem_singleton.mpr rfl) rfl).2.2

/-! ### C10 — total_rows versus the pagination window -/

/-- C10. For every stored dataset and every `limit`/`offset`/
`exclude_duplicates` combination, `get_data` reports `total_rows` straight
from the metadata `row_count`, while `returned_rows` and `data` are
exactly the optionally duplicate-filtered row list windowed by `offset`
then `limit`. -/
theorem get_data_total_rows_invariant (db : DbState) (name : String)
    (limit offset : Nat) (ex : Bool) (ds : MetadataRec)
    (h : db.metadata.find? (fun m => decide (m.dataset_name = name)) = some ds) :
    get_data db name limit offset ex = Except.ok
      { dataset_name := name, total_rows := ds.row_count,
        returned_rows :=
          ((((if ex then
                (db.rows.filter (fun r => decide (r.dataset_id = ds.id))).filter
                  (fun r => !r.is_duplicate)
              else
                db.rows.filter (fun r => decide (r.dataset_id = ds.id)))).drop offset).take
            limit).length,
        data :=
          ((((if ex then
                (db.rows.filter (fun r => decide (r.dataset_id = ds.id))).filter
                  (fun r => !r.is_duplicate)
              else
                db.rows.filter (fun r => decide (r.dataset_id = ds.id)))).drop offset).take
            limit).map (·.data_json) } := by
  unfold get_data
  rw [h]

theorem get_data_total_rows_invariant_witness :
    get_data dbFixture "ds1" 1 1 false = Except.ok
      { dataset_name := "ds1", total_rows := 3, returned_rows := 1,
        data := [[("a", some "1")]] } := by
  have h := get_data_total_rows_invariant dbFixture "ds1" 1 1 false mdFixture rfl
  rw [h]
  rfl

/-! ### The insert loop: length, hashes, flags, count -/

theorem insertRowsAux_length (dsid : Nat) (seen : List String)
    (rows : List (Nat × List (String × Option String))) :
    (insertRowsAux dsid seen rows).2.length = rows.length := by
  induction rows generalizing seen with
  | nil => rfl
  | cons a rest ih =>
    obtain ⟨idx, r⟩ := a
    simp [insertRowsAux, ih]

theorem insertRowsAux_hashes (dsid : Nat) (seen : List String)
    (rows : List (Nat × List (String × Option String))) :
    (insertRowsAux dsid seen rows).2.map (·.row_hash)
      = rows.map (fun r => calculate_row_hash r.2) := by
  induction rows generalizing seen with
  | nil => rfl
  | cons a rest ih =>
    obtain ⟨idx, r⟩ := a
    simp [insertRowsAux, ih]

theorem insertRowsAux_count_filter (dsid : Nat) (seen : List String)
    (rows : List (Nat × List (String × Option String))) :
    (insertRowsAux dsid seen rows).1
      = ((insertRowsAux dsid seen rows).2.filter (fun rec0 => rec0.is_duplicate)).length := by
  induction rows generalizing seen with
  | nil => rfl
  | cons a rest ih =>
    obtain ⟨idx, r⟩ := a
    by_cases hmem : calculate_row_hash r ∈ seen
    · simp [insertRowsAux, List.filter_cons, hmem, ih]
    · simp [insertRowsAux, List.filter_cons, hmem, ih]

theorem insertRowsAux_get_dup (dsid : Nat)
    (rows : List (Nat × List (String × Option String))) :
    ∀ (seen : List String) (i : Nat) (hi : i < rows.length)
      (hi2 : i < (insertRowsAux dsid seen rows).2.length),
      ((insertRowsAux dsid seen rows).2.get ⟨i, hi2⟩).is_duplicate
        = decide (calculate_row_hash (rows.get ⟨i, hi⟩).2
            ∈ seen ++ (rows.map (fun r => calculate_row_hash r.2)).take i) := by
  induction rows with
  | nil => intro seen i hi _; exact absurd hi (Nat.not_lt_zero i)
  | cons a rest ih =>
    obtain ⟨idx, r⟩ := a
    intro seen i hi hi2
    cases i with
    | zero => simp [insertRowsAux]
    | succ n =>
      have hn : n < rest.length := Nat.lt_of_succ_lt_succ hi
      have hn2 : n < (insertRowsAux dsid (calculate_row_hash r :: seen) rest).2.length := by
        rw [insertRowsAux_length]; exact hn
      have hrec := ih (calculate_row_hash r :: seen) n hn hn2
      simp only [insertRowsAux, List.get_cons_succ, List.map_cons, List.take_succ_cons]
      rw [hrec]
      apply decide_eq_decide.mpr
      simp only [List.mem_append, List.mem_cons]
      tauto

/-- The `row_hash` stored in the i-th built record is the hash of the
i-th row. -/
theorem insertRowsAux_get_hash (dsid : Nat)
    (rows : List (Nat × List (String × Option String))) :
    ∀ (seen : List String) (i : Nat) (hi : i < rows.length)
      (hi2 : i < (insertRowsAux dsid seen rows).2.length),
      ((insertRowsAux dsid seen rows).2.get ⟨i, hi2⟩).row_hash
        = calculate_row_hash (rows.get ⟨i, hi⟩).2 := by
  induction rows with
  | nil => intro seen i hi _; exact absurd hi (Nat.not_lt_zero i)
  | cons a rest ih =>
    obtain ⟨idx, r⟩ := a
    intro seen i hi hi2
    cases i with
    | zero => simp [insertRowsAux]
    | succ n =>
      have hn : n < rest.length := Nat.lt_of_succ_lt_succ hi
      have hn2 : n < (insertRowsAux dsid (calculate_row_hash r :: seen) rest).2.length := by
        rw [insertRowsAux_length]; exact hn
      have hrec := ih (calculate_row_hash r :: seen) n hn hn2
      simpa [insertRowsAux] using hrec

/-! ### C4 — the is_duplicate flag and the duplicate count -/

/-- C4. In one ingestion, a row record's `is_duplicate` flag is true
exactly when some strictly earlier row of the same ingestion produced the
same `row_hash` (so of two identical rows the second is flagged, never the
first), and the returned duplicate count is the number of flagged rows. -/
theorem insert_duplicate_flag_spec (dsid : Nat) (df : PdFrame) :
    (∀ (i : Nat) (hi : i < (insert_data_rows dsid df).2.length),
      (((insert_data_rows dsid df).2.get ⟨i, hi⟩).is_duplicate = true ↔
        ∃ (j : Nat) (hj : j < i),
          ((insert_data_rows dsid df).2.get
              ⟨j, lt_trans hj hi⟩).row_hash
            = ((insert_data_rows dsid df).2.get ⟨i, hi⟩).row_hash)) ∧
    (insert_data_rows dsid df).1
      = ((insert_data_rows dsid df).2.filter (fun rec0 => rec0.is_duplicate)).length := by
  constructor
  · intro i hi
    have hlen := insertRowsAux_length dsid [] df.rowsList
    have hi' : i < df.rowsList.length := by
      rw [← hlen]; exact hi
    have hdup := insertRowsAux_get_dup dsid df.rowsList [] i hi' hi
    have hdup2 : ((insert_data_rows dsid df).2.get ⟨i, hi⟩).is_duplicate
        = decide (calculate_row_hash (df.rowsList.get ⟨i, hi'⟩).2
            ∈ [] ++ (df.rowsList.map (fun r => calculate_row_hash r.2)).take i) := hdup
    rw [hdup2]
    simp only [List.nil_append, decide_eq_true_eq, List.mem_take_iff_getElem,
      List.length_map, List.getElem_map]
    constructor
    · rintro ⟨j, hj, hjeq⟩
      have hji : j < i := lt_of_lt_of_le hj (Nat.min_le_left _ _)
      have hjlen : j < df.rowsList.length := lt_of_lt_of_le hj (Nat.min_le_right _ _)
      have hjlen2 : j < (insertRowsAux dsid [] df.rowsList).2.length := by
        rw [insertRowsAux_length]; exact hjlen
      have e1 := insertRowsAux_get_hash dsid df.rowsList [] j hjlen hjlen2
      have e2 := insertRowsAux_get_hash dsid df.rowsList [] i hi' hi
      exact ⟨j, hji, e1.trans (hjeq.trans e2.symm)⟩
    · rintro ⟨j, hj, hjeq⟩
      have hjlen : j < df.rowsList.length := lt_trans hj hi'
      have hjlen2 : j < (insertRowsAux dsid [] df.rowsList).2.length := by
        rw [insertRowsAux_length]; exact hjlen
      have e1 := insertRowsAux_get_hash dsid df.rowsList [] j hjlen hjlen2
      have e2 := insertRowsAux_get_hash dsid df.rowsList [] i hi' hi
      exact ⟨j, lt_min hj hjlen, e1.symm.trans (hjeq.trans e2)⟩
  · exact insertRowsAux_count_filter dsid [] df.rowsList

/-- C4 witness: in the concrete three-row table `dfDup` (rows 1, 1, 2)
the second row is flagged as the duplicate of the first, and the count
equals the number of flagged records. -/
theorem insert_duplicate_flag_spec_witness :
    ((insert_data_rows 1 dfDup).2.get ⟨1, by decide⟩).is_duplicate = true ∧
    (insert_data_rows 1 dfDup).1
      = ((insert_data_rows 1 dfDup).2.filter (fun rec0 => rec0.is_duplicate)).length := by
  constructor
  · exact ((insert_duplicate_flag_spec 1 dfDup).1 1 (by decide)).mpr
      ⟨0, Nat.zero_lt_one, by decide⟩
  · exact (insert_duplicate_flag_spec 1 dfDup).2

/-! ### C8 — duplicate count = rows minus distinct hashes -/

theorem insertRowsAux_count_distinct (dsid : Nat)
    (rows : List (Nat × List (String × Option String))) :
    ∀ seen : List String,
      (insertRowsAux dsid seen rows).1
        = rows.length
          - ((rows.map (fun r => calculate_row_hash r.2)).toFinset \ seen.toFinset).card := by
  induction rows with
  | nil => intro seen; simp [insertRowsAux]
  | cons a rest ih =>
    obtain ⟨idx, r⟩ := a
    intro seen
    have hb : ((rest.map (fun r => calculate_row_hash r.2)).toFinset \ seen.toFinset).card
        ≤ rest.length := by
      calc ((rest.map (fun r => calculate_row_hash r.2)).toFinset \ seen.toFinset).card
          ≤ (rest.map (fun r => calculate_row_hash r.2)).toFinset.card :=
            Finset.card_le_card Finset.sdiff_subset
        _ ≤ (rest.map (fun r => calculate_row_hash r.2)).length := List.toFinset_card_le _
        _ = rest.length := List.length_map _ _
    have hrec := ih (calculate_row_hash r :: seen)
    have hmapc : ((idx, r) :: rest).map (fun r => calculate_row_hash r.2)
        = calculate_row_hash r :: rest.map (fun r => calculate_row_hash r.2) := rfl
    by_cases hmem : calculate_row_hash r ∈ seen
    · have hstep : (insertRowsAux dsid seen ((idx, r) :: rest)).1
          = (insertRowsAux dsid (calculate_row_hash r :: seen) rest).1 + 1 := by
        simp [insertRowsAux, hmem]
      have h1 : (calculate_row_hash r :: seen).toFinset = seen.toFinset := by
        rw [List.toFinset_cons]
        exact Finset.insert_eq_self.mpr (List.mem_toFinset.mpr hmem)
      have h3 : (calculate_row_hash r :: rest.map (fun r => calculate_row_hash r.2)).toFinset
            \ seen.toFinset
          = (rest.map (fun r => calculate_row_hash r.2)).toFinset \ seen.toFinset := by
        rw [List.toFinset_cons]
        exact Finset.insert_sdiff_of_mem _ (List.mem_toFinset.mpr hmem)
      rw [hstep, hrec, h1, hmapc, h3, List.length_cons]
      omega
    · have hstep : (insertRowsAux dsid seen ((idx, r) :: rest)).1
          = (insertRowsAux dsid (calculate_row_hash r :: seen) rest).1 := by
        simp [insertRowsAux, hmem]
      have hnotS : calculate_row_hash r ∉ seen.toFinset :=
        fun hc => hmem (List.mem_toFinset.mp hc)
      have h1 : (calculate_row_hash r :: seen).toFinset
          = insert (calculate_row_hash r) seen.toFinset := List.toFinset_cons
      have hLHS : (calculate_row_hash r
            :: rest.map (fun r => calculate_row_hash r.2)).toFinset \ seen.toFinset
          = insert (calculate_row_hash r)
              ((rest.map (fun r => calculate_row_hash r.2)).toFinset \ seen.toFinset) := by
        rw [List.toFinset_cons]
        exact Finset.insert_sdiff_of_not_mem _ hnotS
      have hRHS : (rest.map (fun r => calculate_row_hash r.2)).toFinset
            \ insert (calculate_row_hash r) seen.toFinset
          = ((rest.map (fun r => calculate_row_hash r.2)).toFinset
              \ seen.toFinset).erase (calculate_row_hash r) :=
        Finset.sdiff_insert _ _ _
      rw [hstep, hrec, h1, hRHS, hmapc, hLHS, List.length_cons]
      by_cases hM2 : calculate_row_hash r
          ∈ (rest.map (fun r => calculate_row_hash r.2)).toFinset \ seen.toFinset
      · rw [Finset.insert_eq_self.mpr hM2, Finset.card_erase_of_mem hM2]
        have hpos : 0 < ((rest.map (fun r => calculate_row_hash r.2)).toFinset
            \ seen.toFinset).card := Finset.card_pos.mpr ⟨_, hM2⟩
        omega
      · rw [Finset.card_insert_of_not_mem hM2, Finset.erase_eq_of_not_mem hM2]
        omega

/-- C8. The duplicate count `insert_data_rows` returns equals the number
of rows minus the number of distinct row hashes among them. -/
theorem duplicate_count_distinct_hashes (dsid : Nat) (df : PdFrame) :
    (insert_data_rows dsid df).1
      = df.rowsList.length
        - ((df.rowsList.map (fun r => calculate_row_hash r.2)).toFinset).card := by
  have h := insertRowsAux_count_distinct dsid df.rowsList []
  simpa [insert_data_rows] using h

/-! ### Validator-step lemmas -/

theorem mem_dropAtPositionsAux {x : α} (ps : List Nat) :
    ∀ (i : Nat) (l : List α), x ∈ dropAtPositionsAux ps i l → x ∈ l := by
  intro i l
  induction l generalizing i with
  | nil => simp [dropAtPositionsAux]
  | cons y ys ih =>
    intro h
    by_cases hmem : i ∈ ps
    · simp only [dropAtPositionsAux, if_pos hmem, List.nil_append] at h
      exact List.mem_cons_of_mem y (ih (i + 1) h)
    · simp only [dropAtPositionsAux, if_neg hmem, List.singleton_append,
        List.mem_cons] at h
      rcases h with h | h
      · exact h ▸ List.mem_cons_self y ys
      · exact List.mem_cons_of_mem y (ih (i + 1) h)

theorem mem_dropAtPositions {x : α} {ps : List Nat} {l : List α}
    (h : x ∈ dropAtPositions ps l) : x ∈ l :=
  mem_dropAtPositionsAux ps 0 l h

theorem duplicatedNamesAux_eq_nil :
    ∀ (ns seen : List String), ns.Nodup → (∀ n ∈ ns, n ∉ seen) →
      duplicatedNamesAux seen ns = [] := by
  intro ns
  induction ns with
  | nil => intro seen _ _; rfl
  | cons n rest ih =>
    intro seen hnd hdis
    have hn : n ∉ seen := hdis n (List.mem_cons_self n rest)
    have hrest : ∀ m ∈ rest, m ∉ n :: seen := by
      intro m hm hcon
      rcases List.mem_cons.mp hcon with h | h
      · exact (List.nodup_cons.mp hnd).1 (h ▸ hm)
      · exact hdis m (List.mem_cons_of_mem n hm) h
    simp [duplicatedNamesAux, hn, ih (n :: seen) (List.nodup_cons.mp hnd).2 hrest]

theorem validatorStep1_names (df : PdFrame) :
    (validatorStep1 df).1.cols.map (·.name) = df.cols.map (·.name) := by
  simp only [validatorStep1]
  split
  · rfl
  · rw [List.map_map]
    rfl

theorem validatorStep1_col (df : PdFrame) (c : PdColumn) (hc : c ∈ df.cols) :
    ∃ c1, c1 ∈ (validatorStep1 df).1.cols ∧ c1.name = c.name ∧
      ∀ v ∈ c1.values, v ∈ c.values := by
  simp only [validatorStep1]
  split
  · exact ⟨c, hc, rfl, fun v hv => hv⟩
  · exact ⟨_, List.mem_map_of_mem _ hc, rfl, fun v hv => mem_dropAtPositions hv⟩

theorem validatorStep2_of_nodup (df1 : PdFrame)
    (h : (df1.cols.map (·.name)).Nodup) : validatorStep2 df1 = (df1, []) := by
  have hd : duplicatedNames (df1.cols.map (·.name)) = [] :=
    duplicatedNamesAux_eq_nil _ [] h (fun n _ hc => (List.not_mem_nil n) hc)
  simp [validatorStep2, hd]

theorem validatorStep2_index (df1 : PdFrame) :
    (validatorStep2 df1).1.index = df1.index := by
  simp only [validatorStep2]
  split <;> rfl

theorem renameDedupAux_values :
    ∀ (cols : List PdColumn) (seen : List String), ∀ c2 ∈ renameDedupAux seen cols,
      ∃ c ∈ cols, c2.values = c.values := by
  intro cols
  induction cols with
  | nil => intro seen c2 h2; exact absurd h2 (List.not_mem_nil c2)
  | cons c cs ih =>
    intro seen c2 h2
    simp only [renameDedupAux, List.mem_cons] at h2
    rcases h2 with h2 | h2
    · exact ⟨c, List.mem_cons_self c cs, by rw [h2]⟩
    · obtain ⟨c3, hc3, he⟩ := ih (c.name :: seen) c2 h2
      exact ⟨c3, List.mem_cons_of_mem c hc3, he⟩

theorem validatorStep2_cols_values (df1 : PdFrame) :
    ∀ c2 ∈ (validatorStep2 df1).1.cols, ∃ c ∈ df1.cols, c2.values = c.values := by
  simp only [validatorStep2]
  split
  · exact fun c2 h2 => ⟨c2, h2, rfl⟩
  · exact fun c2 h2 => renameDedupAux_values df1.cols [] c2 h2

/-! ### C6 — an all-null column: index entry and error log -/

/-- C6. In a non-empty cleaned table, a column whose values are all null
is kept: the cleaned table still carries a column of that name (all of
whose values are null), its column-index record has `distinct_count = 0`,
no `min_value`/`max_value`, and an empty `sample_values` list, and the
validator logged the column name inside an `all_null_columns` entry. -/
theorem all_null_column_index_and_log (dataset_id : Nat) (df : PdFrame) (c : PdColumn)
    (hnodup : (df.cols.map (·.name)).Nodup)
    (hc : c ∈ df.cols)
    (hnull : ∀ v ∈ c.values, v = none)
    (hrows : (validate_and_clean_data df).1.index ≠ []) :
    ∃ c2, c2 ∈ (validate_and_clean_data df).1.cols ∧
      c2.name = c.name ∧
      (∀ v ∈ c2.values, v = none) ∧
      (columnIndexEntry dataset_id c2).distinct_count = 0 ∧
      (columnIndexEntry dataset_id c2).min_value = none ∧
      (columnIndexEntry dataset_id c2).max_value = none ∧
      (columnIndexEntry dataset_id c2).sample_values = [] ∧
      ∃ colsE, ErrorEntry.all_null_columns colsE "kept_for_schema_integrity"
          ∈ (validate_and_clean_data df).2 ∧ c.name ∈ colsE := by
  obtain ⟨c1, hc1mem, hc1name, hc1sub⟩ := validatorStep1_col df c hc
  have hc1null : ∀ v ∈ c1.values, v = none := fun v hv => hnull v (hc1sub v hv)
  have hnd1 : ((validatorStep1 df).1.cols.map (·.name)).Nodup := by
    rw [validatorStep1_names]; exact hnodup
  have hstep2 := validatorStep2_of_nodup (validatorStep1 df).1 hnd1
  have hclean : (validate_and_clean_data df).1 = (validatorStep1 df).1 := by
    simp only [validate_and_clean_data]
    rw [hstep2]
  have herrs : (validate_and_clean_data df).2
      = (validatorStep1 df).2 ++ ([] : List ErrorEntry)
          ++ validatorStep3 (validatorStep1 df).1 := by
    simp only [validate_and_clean_data]
    rw [hstep2]
  have hfilter : c1 ∈ (validatorStep1 df).1.cols.filter
      (fun c => c.values.all (fun v => decide (v = none))) := by
    rw [List.mem_filter]
    refine ⟨hc1mem, ?_⟩
    rw [List.all_eq_true]
    intro v hv
    exact decide_eq_true (hc1null v hv)
  have hmemN : c1.name ∈ ((validatorStep1 df).1.cols.filter
      (fun c => c.values.all (fun v => decide (v = none)))).map (·.name) :=
    List.mem_map_of_mem _ hfilter
  have hne : ((validatorStep1 df).1.cols.filter
      (fun c => c.values.all (fun v => decide (v = none)))).map (·.name) ≠ [] :=
    List.ne_nil_of_mem hmemN
  have hstep3 : validatorStep3 (validatorStep1 df).1
      = [ErrorEntry.all_null_columns
          (((validatorStep1 df).1.cols.filter
            (fun c => c.values.all (fun v => decide (v = none)))).map (·.name))
          "kept_for_schema_integrity"] := by
    simp only [validatorStep3]
    rw [if_neg (by simpa using hne)]
  have hfm : c1.values.filterMap id = [] :=
    List.filterMap_eq_nil_iff.mpr (fun a ha => hc1null a ha)
  refine ⟨c1, ?_, hc1name, hc1null, ?_, ?_, ?_, ?_, ?_⟩
  · rw [hclean]; exact hc1mem
  · simp [columnIndexEntry, hfm]
  · simp [columnIndexEntry, hfm]
  · simp [columnIndexEntry, hfm]
  · simp [columnIndexEntry, hfm]
  · refine ⟨((validatorStep1 df).1.cols.filter
        (fun c => c.values.all (fun v => decide (v = none)))).map (·.name), ?_, ?_⟩
    · rw [herrs, hstep3]
      simp
    · rw [← hc1name]; exact hmemN

/-- C6 witness: a two-column two-row table whose column `a` is entirely
null (column `b` keeps the rows non-empty). -/
theorem all_null_column_index_and_log_witness :
    ∃ c2, c2 ∈ (validate_and_clean_data
        { cols := [{ name := "a", dtype := "object", values := [none, none] },
                   { name := "b", dtype := "object", values := [some "1", some "2"] }],
          index := [0, 1] }).1.cols ∧
      c2.name = "a" ∧
      (∀ v ∈ c2.values, v = none) ∧
      (columnIndexEntry 7 c2).distinct_count = 0 ∧
      (columnIndexEntry 7 c2).min_value = none ∧
      (columnIndexEntry 7 c2).max_value = none ∧
      (columnIndexEntry 7 c2).sample_values = [] ∧
      ∃ colsE, ErrorEntry.all_null_columns colsE "kept_for_schema_integrity"
          ∈ (validate_and_clean_data
              { cols := [{ name := "a", dtype := "object", values := [none, none] },
                         { name := "b", dtype := "object", values := [some "1", some "2"] }],
                index := [0, 1] }).2 ∧ "a" ∈ colsE :=
  all_null_column_index_and_log 7
    { cols := [{ name := "a", dtype := "object", values := [none, none] },
               { name := "b", dtype := "object", values := [some "1", some "2"] }],
      index := [0, 1] }
    { name := "a", dtype := "object", values := [none, none] }
    (by decide) (by decide) (by decide) (by decide)

/-! ### C9 — the primary parse path and the missing-value machinery -/

/-- Shape of every successful `readCsvWith` parse: the columns come from
the header, the cell function is applied recordwise, and the index is the
range of the record count. -/
theorem readCsvWith_ok (cell : String → Option String) (content : String) (df : PdFrame)
    (h : readCsvWith cell content = Except.ok df) :
    ∃ (header : List String) (records : List (List String)), header ≠ [] ∧
      df.cols = header.enum.map (fun jn =>
        { name := jn.2, dtype := "object",
          values := records.map (fun r => cell (r.getD jn.1 "")) }) ∧
      df.index = List.range records.length := by
  unfold readCsvWith at h
  cases hsplit : (splitOnChar '\n' content.data).filter (fun l => decide (l ≠ [])) with
  | nil =>
    rw [hsplit] at h
    exact absurd h (by simp)
  | cons hl dl =>
    rw [hsplit] at h
    dsimp only at h
    split at h
    · exact absurd h (by simp)
    · split at h
      · rename_i hempty _
        refine ⟨parseRecord hl, dl.map parseRecord, ?_, ?_, ?_⟩
        · intro hnil
          rw [List.isEmpty_iff] at hempty
          exact hempty hnil
        · exact (congrArg PdFrame.cols (Except.ok.inj h)).symm
        · rw [← Except.ok.inj h]
      · exact absurd h (by simp)

/-- C9 counterexample. The claim says a primary-path parse yields only
non-null string cells and hence the validator flags no column as
all-null. The header-only upload `"a"` parses (primary path) to a
zero-row table with only (vacuously) non-null string cells, yet the
validator flags its column `a` as all-null, so the claim as stated fails
at this upload. -/
theorem primary_parse_zero_row_cex :
    readCsvPrimary "a"
      = Except.ok { cols := [{ name := "a", dtype := "object", values := [] }],
                    index := [] } ∧
    (validate_and_clean_data
        { cols := [{ name := "a", dtype := "object", values := [] }], index := [] }).2
      = [ErrorEntry.all_null_columns ["a"] "kept_for_schema_integrity"] :=
  ⟨rfl, rfl⟩

/-- C9 amended: for every upload parsed by the primary path
(`dtype=str`, `keep_default_na=False`) every cell of the parsed table is
a non-null string; the validator removes no rows as empty and the
dataset's `has_missing_values` is false; and — provided the parsed table
has at least one data row — no column is flagged as all-null (a zero-row
upload instead flags every column, see the counterexample). -/
theorem primary_parse_no_missing (content : String) (df : PdFrame)
    (hparse : readCsvPrimary content = Except.ok df)
    (hrows : df.index ≠ []) :
    (∀ c ∈ df.cols, ∀ v ∈ c.values, v ≠ none) ∧
    (validate_and_clean_data df).1.index = df.index ∧
    (∀ cnt ps, ErrorEntry.empty_rows cnt ps ∉ (validate_and_clean_data df).2) ∧
    (∀ colsE act, ErrorEntry.all_null_columns colsE act ∉ (validate_and_clean_data df).2) ∧
    (detect_missing_values (validate_and_clean_data df).1).has_missing = false := by
  obtain ⟨header, records, hhne, hcols, hindex⟩ := readCsvWith_ok _ content df hparse
  have hcells : ∀ c ∈ df.cols, ∀ v ∈ c.values, v ≠ none := by
    intro c hcmem v hv
    rw [hcols] at hcmem
    obtain ⟨jn, _, hje⟩ := List.mem_map.mp hcmem
    rw [← hje] at hv
    obtain ⟨r, _, hre⟩ := List.mem_map.mp hv
    rw [← hre]
    simp
  have hvlen : ∀ c ∈ df.cols, c.values.length = df.index.length := by
    intro c hcmem
    rw [hcols] at hcmem
    obtain ⟨jn, _, hje⟩ := List.mem_map.mp hcmem
    rw [← hje, hindex]
    simp
  have hcolsne : df.cols ≠ [] := by
    rw [hcols]
    intro hnil
    have := congrArg List.length hnil
    simp at this
    exact hhne this
  -- no row of the parsed table is fully null
  have hnotempty : ∀ p ∈ List.range df.index.length, ¬(isEmptyRowAt df p = true) := by
    intro p hp hall
    obtain ⟨c0, hc0⟩ := List.exists_mem_of_ne_nil df.cols hcolsne
    have hplen : p < c0.values.length := by
      rw [hvlen c0 hc0]
      exact List.mem_range.mp hp
    rw [isEmptyRowAt, List.all_eq_true] at hall
    have h0 := hall c0 hc0
    rw [decide_eq_true_eq] at h0
    have hgd : c0.values.getD p none = c0.values[p] := by
      rw [List.getD_eq_getElem?_getD, List.getElem?_eq_getElem hplen]
      rfl
    exact (hcells c0 hc0 _ (List.getElem_mem hplen)) (hgd.symm.trans h0)
  have hfilter0 : (List.range df.index.length).filter (fun p => isEmptyRowAt df p) = [] :=
    List.filter_eq_nil_iff.mpr (fun p hp => by simpa using hnotempty p hp)
  have hstep1 : validatorStep1 df = (df, []) := by
    simp only [validatorStep1, hfilter0]
    rfl
  have hdf2vals : ∀ c2 ∈ (validatorStep2 df).1.cols, ∃ c ∈ df.cols, c2.values = c.values :=
    validatorStep2_cols_values df
  -- no surviving column is all-null
  have hallnull : ∀ c2 ∈ (validatorStep2 df).1.cols,
      ¬(c2.values.all (fun v => decide (v = none)) = true) := by
    intro c2 h2 hall
    obtain ⟨c, hcm, hve⟩ := hdf2vals c2 h2
    have hne2 : c.values ≠ [] := by
      intro hnil
      have h0 := hvlen c hcm
      rw [hnil] at h0
      exact hrows (List.length_eq_zero.mp h0.symm)
    obtain ⟨v, hvmem⟩ := List.exists_mem_of_ne_nil c.values hne2
    rw [List.all_eq_true] at hall
    have := hall v (hve ▸ hvmem)
    rw [decide_eq_true_eq] at this
    exact (hcells c hcm v hvmem) this
  have hstep3 : validatorStep3 (validatorStep2 df).1 = [] := by
    have hfe : (validatorStep2 df).1.cols.filter
        (fun c => c.values.all (fun v => decide (v = none))) = [] :=
      List.filter_eq_nil_iff.mpr (fun c2 h2 => by simpa using hallnull c2 h2)
    simp [validatorStep3, hfe]
  have hsplit : validate_and_clean_data df
      = ((validatorStep2 df).1, [] ++ (validatorStep2 df).2 ++ []) := by
    simp only [validate_and_clean_data, hstep1, hstep3]
  have hstep2snd : (validatorStep2 df).2 = []
      ∨ ∃ cs, (validatorStep2 df).2 = [ErrorEntry.duplicate_columns cs] := by
    simp only [validatorStep2]
    split
    · exact Or.inl rfl
    · exact Or.inr ⟨_, rfl⟩
  refine ⟨hcells, ?_, ?_, ?_, ?_⟩
  · rw [hsplit]
    exact validatorStep2_index df
  · intro cnt ps hmem
    rw [hsplit] at hmem
    simp only [List.nil_append, List.append_nil] at hmem
    rcases hstep2snd with h | ⟨cs, h⟩ <;> rw [h] at hmem <;> simp at hmem
  · intro colsE act hmem
    rw [hsplit] at hmem
    simp only [List.nil_append, List.append_nil] at hmem
    rcases hstep2snd with h | ⟨cs, h⟩ <;> rw [h] at hmem <;> simp at hmem
  · rw [hsplit]
    simp only [detect_missing_values]
    rw [List.any_eq_false]
    intro c2 h2
    obtain ⟨c, hcm, hve⟩ := hdf2vals c2 h2
    have hcount : c2.values.count none = 0 := by
      rw [List.count_eq_zero]
      intro hmem
      exact (hcells c hcm none (hve ▸ hmem)) rfl
    simp [hcount]

/-- C9 witness: the one-row upload `"a\n1"` parses to a one-cell table;
the amended conclusions evaluated there. -/
theorem primary_parse_no_missing_witness :
    (validate_and_clean_data
        { cols := [{ name := "a", dtype := "object", values := [some "1"] }],
          index := [0] }).1.index = [0] ∧
    (detect_missing_values (validate_and_clean_data
        { cols := [{ name := "a", dtype := "object", values := [some "1"] }],
          index := [0] }).1).has_missing = false := by
  have h := primary_parse_no_missing "a\n1"
    { cols := [{ name := "a", dtype := "object", values := [some "1"] }], index := [0] }
    rfl (by decide)
  exact ⟨h.2.1, h.2.2.2.2⟩

/-! ### C7 — rollback on a failed ingestion -/

theorem insert_data_rows_db_error_committed {faults : FaultSpec} {s : Session}
    {dataset_id : Nat} {df : PdFrame} {e : PyErr × Session}
    (h : insert_data_rows_db faults s dataset_id df = Except.error e) :
    e.2.committed = s.committed := by
  unfold insert_data_rows_db at h
  split at h
  · dsimp only at h
    split at h
    · cases h
      rfl
    · exact absurd h (by simp)
  · exact absurd h (by simp)

theorem insert_data_rows_db_ok_committed {faults : FaultSpec} {s : Session}
    {dataset_id : Nat} {df : PdFrame} {r : Nat × Session}
    (h : insert_data_rows_db faults s dataset_id df = Except.ok r) :
    r.2.committed = s.committed := by
  unfold insert_data_rows_db at h
  split at h
  · dsimp only at h
    split at h
    · exact absurd h (by simp)
    · cases h
      rfl
  · cases h
    rfl

theorem build_column_index_db_error_committed {faults : FaultSpec} {s : Session}
    {dataset_id : Nat} {df : PdFrame} {e : PyErr × Session}
    (h : build_column_index_db faults s dataset_id df = Except.error e) :
    e.2.committed = s.committed := by
  unfold build_column_index_db at h
  split at h
  · dsimp only at h
    split at h
    · cases h
      rfl
    · exact absurd h (by simp)
  · exact absurd h (by simp)

theorem build_column_index_db_ok_committed {faults : FaultSpec} {s : Session}
    {dataset_id : Nat} {df : PdFrame} {r : Session}
    (h : build_column_index_db faults s dataset_id df = Except.ok r) :
    r.committed = s.committed := by
  unfold build_column_index_db at h
  split at h
  · dsimp only at h
    split at h
    · exact absurd h (by simp)
    · cases h
      rfl
  · cases h
    rfl

/-- Every error the upload body can return carries a session whose
committed state is the one the request started from — the body commits
only on its success exit. -/
theorem upload_body_error_committed (content filename : String)
    (dataset_name description : Option String) (now : String) (faults : FaultSpec)
    (db : Session) (e : PyErr × Session)
    (h : upload_body content filename dataset_name description now faults db
        = Except.error e) :
    e.2.committed = db.committed := by
  unfold upload_body at h
  dsimp only at h
  cases hhash : get_dataset_by_hash db (calculate_file_hash content) with
  | some m =>
    rw [hhash] at h
    dsimp only at h
    cases h
    rfl
  | none =>
    rw [hhash] at h
    dsimp only at h
    cases hcsv : readCsvSafe content with
    | error epe =>
      rw [hcsv] at h
      dsimp only at h
      cases h
      rfl
    | ok df0 =>
      rw [hcsv] at h
      dsimp only at h
      cases hname : get_dataset_by_name db
          (resolvedDatasetName dataset_name filename now) with
      | some m2 =>
        rw [hname] at h
        dsimp only at h
        cases h
        rfl
      | none =>
        rw [hname] at h
        dsimp only at h
        split at h
        · rename_i es hins
          cases h
          exact (insert_data_rows_db_error_committed hins).trans rfl
        · rename_i res hins
          split at h
          · rename_i es hbuild
            cases h
            exact (build_column_index_db_error_committed hbuild).trans
              ((insert_data_rows_db_ok_committed hins).trans rfl)
          · rename_i db3 hbuild
            split at h
            · cases h
              exact (build_column_index_db_ok_committed hbuild).trans
                ((insert_data_rows_db_ok_committed hins).trans rfl)
            · exact absurd h (by simp)

/-- C7. Whenever the upload route answers with a failure (any status
produced by its `except` clause, i.e. 500), the committed store — what
every other session and every reader observes — is exactly the store the
request began with: no metadata record, data row, or column-index entry
of the failed ingestion remains visible, for every input and every
injected storage failure point. -/
theorem failed_upload_rollback (content filename : String)
    (dataset_name description : Option String) (now : String) (faults : FaultSpec)
    (db : Session) (code : Nat) (detail : String)
    (h : (upload_csv content filename dataset_name description now faults db).1
        = UploadOutcome.failure code detail) :
    (upload_csv content filename dataset_name description now faults db).2.committed
      = db.committed := by
  unfold upload_csv at h ⊢
  cases hb : upload_body content filename dataset_name description now faults db with
  | ok r =>
    rw [hb] at h
    simp at h
  | error e =>
    have hcom := upload_body_error_committed content filename dataset_name description
      now faults db e hb
    simpa [Session.rollback] using hcom

/-- C7 witness: the duplicate-file upload against the fixture store fails
(with status 500) and leaves the committed store unchanged. -/
theorem failed_upload_rollback_witness :
    (upload_csv "a\n1" "test.csv" none none "ts" noFaults sessionFixture).2.committed
      = sessionFixture.committed :=
  failed_upload_rollback "a\n1" "test.csv" none none "ts" noFaults sessionFixture
    500 "409: Duplicate file. Already stored as: ds1" rfl

/-! ### C5 — canonical row hashing -/

theorem append_cons_ne {c1 c2 : Char} (P t1 t2 : List Char) (h : c1 ≠ c2) :
    P ++ c1 :: t1 ≠ P ++ c2 :: t2 := by
  intro he
  have h2 := List.append_cancel_left he
  injection h2 with h3 _
  exact h h3

theorem sorted_keyLT_of_nodup {l : List (String × Option String)}
    (hs : l.Sorted keyLE) (hnd : (l.map Prod.fst).Nodup) : l.Sorted keyLT := by
  have hnd2 : l.Pairwise (fun p q => p.1 ≠ q.1) := List.pairwise_map.mp hnd
  exact (List.Pairwise.and hs hnd2).imp (fun hpq => lt_of_le_of_ne hpq.1 hpq.2)

theorem canonicalItems_perm (l : List (String × Option String)) :
    (canonicalItems l).Perm l := List.perm_insertionSort keyLE l

theorem canonicalItems_sorted (l : List (String × Option String)) :
    (canonicalItems l).Sorted keyLE := List.sorted_insertionSort keyLE l

theorem canonicalItems_nodup_keys {l : List (String × Option String)}
    (hnd : (l.map Prod.fst).Nodup) : ((canonicalItems l).map Prod.fst).Nodup :=
  ((canonicalItems_perm l).map Prod.fst).nodup_iff.mpr hnd

/-- On nodup-key rows the sorted permutation is unique, so any two
permutations of the same row canonicalize identically — the
`sort_keys=True` guarantee. -/
theorem canonicalItems_eq_of_perm {l1 l2 : List (String × Option String)}
    (hp : l1.Perm l2) (hnd : (l1.map Prod.fst).Nodup) :
    canonicalItems l1 = canonicalItems l2 :=
  List.eq_of_perm_of_sorted
    (((canonicalItems_perm l1).trans hp).trans (canonicalItems_perm l2).symm)
    (sorted_keyLT_of_nodup (canonicalItems_sorted l1) (canonicalItems_nodup_keys hnd))
    (sorted_keyLT_of_nodup (canonicalItems_sorted l2)
      (canonicalItems_nodup_keys ((hp.map Prod.fst).nodup_iff.mp hnd)))

theorem calculate_row_hash_perm {r1 r2 : List (String × Option String)}
    (hp : r1.Perm r2) (hnd : (r1.map Prod.fst).Nodup) :
    calculate_row_hash r1 = calculate_row_hash r2 := by
  unfold calculate_row_hash rowStringChars
  rw [canonicalItems_eq_of_perm hp hnd]

theorem serializeStringChars_empty : serializeStringChars "" = ['"', '"'] := rfl

theorem calculate_row_hash_null_ne_empty (a : String)
    (row : List (String × Option String))
    (hnd : (((a, (none : Option String)) :: row).map Prod.fst).Nodup) :
    calculate_row_hash ((a, none) :: row) ≠ calculate_row_hash ((a, some "") :: row) := by
  set g : String × Option String → String × Option String :=
    fun p => if p.1 = a then (p.1, some "") else p with hg
  have hkeys : ∀ p : String × Option String, (g p).1 = p.1 := by
    intro p
    by_cases hpa : p.1 = a
    · simp [hg, hpa]
    · simp [hg, hpa]
  have hanotin : a ∉ row.map Prod.fst := (List.nodup_cons.mp hnd).1
  have hrowid : ∀ p ∈ row, g p = p := by
    intro p hp
    have hne : p.1 ≠ a := fun he => hanotin (he ▸ List.mem_map_of_mem Prod.fst hp)
    simp [hg, hne]
  have hmapg : ((a, (none : Option String)) :: row).map g = (a, some "") :: row := by
    rw [List.map_cons, show g (a, (none : Option String)) = (a, some "") from by simp [hg],
      (List.map_congr_left hrowid).trans (List.map_id row)]
  have hperm1 := canonicalItems_perm ((a, (none : Option String)) :: row)
  have hnds1 := canonicalItems_nodup_keys hnd
  have hmem : (a, (none : Option String))
      ∈ canonicalItems ((a, (none : Option String)) :: row) :=
    hperm1.mem_iff.mpr (List.mem_cons_self _ _)
  obtain ⟨u, v, hsplit⟩ := List.append_of_mem hmem
  have hfst : (canonicalItems ((a, (none : Option String)) :: row)).map Prod.fst
      = u.map Prod.fst ++ a :: v.map Prod.fst := by
    rw [hsplit]
    simp
  have hndmid : a ∉ u.map Prod.fst ∧ a ∉ v.map Prod.fst := by
    have h0 := hnds1
    rw [hfst] at h0
    have h1 := List.nodup_middle.mp h0
    have h2 := List.nodup_cons.mp h1
    exact ⟨fun hc => h2.1 (List.mem_append.mpr (Or.inl hc)),
           fun hc => h2.1 (List.mem_append.mpr (Or.inr hc))⟩
  have huid : ∀ p ∈ u, g p = p := by
    intro p hp
    have hne : p.1 ≠ a := fun he => hndmid.1 (he ▸ List.mem_map_of_mem Prod.fst hp)
    simp [hg, hne]
  have hvid : ∀ p ∈ v, g p = p := by
    intro p hp
    have hne : p.1 ≠ a := fun he => hndmid.2 (he ▸ List.mem_map_of_mem Prod.fst hp)
    simp [hg, hne]
  have hs1g : (canonicalItems ((a, (none : Option String)) :: row)).map g
      = u ++ (a, some "") :: v := by
    rw [hsplit, List.map_append, List.map_cons,
      show g (a, (none : Option String)) = (a, some "") from by simp [hg],
      (List.map_congr_left huid).trans (List.map_id u),
      (List.map_congr_left hvid).trans (List.map_id v)]
  have hnd2keys : (((a, some "") :: row).map Prod.fst).Nodup := hnd
  have hs2 : canonicalItems ((a, some "") :: row) = u ++ (a, some "") :: v := by
    apply List.eq_of_perm_of_sorted (r := keyLT)
    · have p1 : (canonicalItems ((a, some "") :: row)).Perm ((a, some "") :: row) :=
        canonicalItems_perm _
      have p2 := hperm1.map g
      rw [hmapg, hs1g] at p2
      exact p1.trans p2.symm
    · exact sorted_keyLT_of_nodup (canonicalItems_sorted _)
        (canonicalItems_nodup_keys hnd2keys)
    · rw [← hs1g]
      have hstrict := sorted_keyLT_of_nodup
        (canonicalItems_sorted ((a, (none : Option String)) :: row)) hnds1
      have hpair : (canonicalItems ((a, (none : Option String)) :: row)).Pairwise
          (fun p q => keyLT (g p) (g q)) := by
        refine List.Pairwise.imp ?_ hstrict
        intro p q hpq
        show (g p).1 < (g q).1
        rw [hkeys p, hkeys q]
        exact hpq
      exact List.pairwise_map.mpr hpair
  intro he
  have hchars : rowStringChars ((a, (none : Option String)) :: row)
      = rowStringChars ((a, some "") :: row) := congrArg String.data he
  rw [rowStringChars, rowStringChars, hsplit, hs2] at hchars
  have hL : Char.ofNat 123
        :: (joinSep [',', ' ']
            ((u ++ (a, (none : Option String)) :: v).map entryChars) ++ [Char.ofNat 125])
      = (Char.ofNat 123
          :: (preJoin [',', ' '] (u.map entryChars) ++ (serializeStringChars a ++ [':', ' '])))
        ++ ('n' :: ('u' :: 'l' :: 'l'
            :: (postJoin [',', ' '] (v.map entryChars) ++ [Char.ofNat 125]))) := by
    rw [List.map_append, List.map_cons, joinSep_decomp]
    simp [entryChars, serializeValueChars, List.append_assoc]
  have hR : Char.ofNat 123
        :: (joinSep [',', ' ']
            ((u ++ (a, some "") :: v).map entryChars) ++ [Char.ofNat 125])
      = (Char.ofNat 123
          :: (preJoin [',', ' '] (u.map entryChars) ++ (serializeStringChars a ++ [':', ' '])))
        ++ ('"' :: ('"'
            :: (postJoin [',', ' '] (v.map entryChars) ++ [Char.ofNat 125]))) := by
    rw [List.map_append, List.map_cons, joinSep_decomp]
    simp [entryChars, serializeValueChars, serializeStringChars_empty, List.append_assoc]
  rw [hL, hR] at hchars
  exact append_cons_ne _ _ _ (by decide) hchars

/-- C5. Row hashing is canonical: two row maps with identical
column-to-value content (permutations of each other, keys distinct) hash
identically regardless of in-memory ordering, and binding a column to
null never hashes equal to binding that same column to the empty string
(`null` versus `""` serialize differently at the same position of the
canonical serialization). -/
theorem row_hash_canonicalization :
    (∀ r1 r2 : List (String × Option String), r1.Perm r2 → (r1.map Prod.fst).Nodup →
        calculate_row_hash r1 = calculate_row_hash r2) ∧
    (∀ (a : String) (row : List (String × Option String)),
        (((a, (none : Option String)) :: row).map Prod.fst).Nodup →
        calculate_row_hash ((a, none) :: row) ≠ calculate_row_hash ((a, some "") :: row)) :=
  ⟨fun _ _ hp hnd => calculate_row_hash_perm hp hnd,
   fun a row hnd => calculate_row_hash_null_ne_empty a row hnd⟩

/-- C5 witness: a two-column row listed in both orders hashes
identically, and `{a: null}` does not hash like `{a: ""}`. -/
theorem row_hash_canonicalization_witness :
    calculate_row_hash [("b", some "1"), ("a", none)]
      = calculate_row_hash [("a", none), ("b", some "1")] ∧
    calculate_row_hash [("a", (none : Option String))]
      ≠ calculate_row_hash [("a", some "")] :=
  ⟨row_hash_canonicalization.1 [("b", some "1"), ("a", none)]
      [("a", none), ("b", some "1")] (by decide) (by decide),
   row_hash_canonicalization.2 "a" [] (by decide)⟩

end CsvDb
